import Mathlib

/-
Formal model of the protocol-ingress utilities of simple-irc-server
(src/utils.rs): identifier validators, the MODE grammar validator, the
wildcard mask matcher, the source-mask normalizer and the IRC line codec.

Strings are modelled as `List Char`.  All scanned characters that matter
are ASCII, so byte positions in the Rust code coincide with character
positions in the model.  Fallible Rust functions are embedded as
`Except`-valued functions; a possible Rust panic is modelled explicitly
(see `MwStep.panicked` for the wildcard matcher).
-/

set_option maxRecDepth 2048

/-- Command identifiers, as used by utils.rs (declared in command.rs, which
only re-exports plain enum tags; the two tags used by utils.rs appear here). -/
inductive CommandId where
  | MODEId
  | PINGId
deriving DecidableEq, Repr

/-- Error type of the MODE grammar validators.  The first four constructors
are exactly the ones constructed by utils.rs (their payloads read off the
construction sites).  `MissingParameter` is Modelled from the spec: the spec
names a closed error set containing a `MissingParameter(index)` kind; the
declaring file command.rs is not part of src/, and utils.rs never constructs
it.  It is included so that statements about that kind can be expressed. -/
inductive CommandError where
  | UnknownUModeFlag : Nat → CommandError
  | WrongParameter : CommandId → Nat → CommandError
  | UnknownMode : Nat → Char → List Char → CommandError
  | InvalidModeParam : List Char → Char → List Char → List Char → CommandError
  | MissingParameter : Nat → CommandError
deriving DecidableEq, Repr

instance {ε α : Type} [DecidableEq ε] [DecidableEq α] : DecidableEq (Except ε α) := fun a b =>
  match a, b with
  | .ok x, .ok y =>
    if h : x = y then .isTrue (by rw [h]) else
      .isFalse (fun hc => h (by cases hc; rfl))
  | .ok _, .error _ => .isFalse (fun hc => Except.noConfusion hc)
  | .error _, .ok _ => .isFalse (fun hc => Except.noConfusion hc)
  | .error e, .error f =>
    if h : e = f then .isTrue (by rw [h]) else
      .isFalse (fun hc => h (by cases hc; rfl))

/-- Validation failure of the identifier validators (the validator crate's
`ValidationError`); it carries the code string passed to `new`. -/
structure ValidationError where
  code : List Char
deriving DecidableEq, Repr

/-- Modelled from the validator crate (external to this repository): the
display form of a `ValidationError` produced by `ValidationError::new(code)`
is the text `Validation error: <code> [<empty params map>]`, as witnessed by
the expected strings in the utils.rs test module. -/
def validationErrorToString (e : ValidationError) : List Char :=
  ("Validation error: ").toList ++ e.code ++ (" [\x7b\x7d]").toList

/-- utils.rs lines 130-139. -/
def validate_username (username : List Char) : Except ValidationError Unit :=
  if !username.isEmpty && (username.headD ' ' == '#' || username.headD ' ' == '&') then
    .error ⟨("Username must not have channel prefix.").toList⟩
  else if !username.contains '.' && !username.contains ':' && !username.contains ',' then
    .ok ()
  else
    .error ⟨("Username must not contains \x27.\x27, \x27,\x27 or \x27:\x27.").toList⟩

/-- utils.rs lines 163-178: the scan loop of `validate_prefixed_channel`.
The boolean argument is the `last_amp` flag (true when the previously
scanned character was an ampersand); the result is the `is_channel` flag. -/
def prefixed_scan : List Char → Bool → Bool
  | [], _ => false
  | c :: rest, last_amp =>
    if c == '~' || c == '@' || c == '%' || c == '+' || c == '&' then
      prefixed_scan rest (c == '&')
    else if c == '#' then !rest.isEmpty
    else last_amp

/-- utils.rs lines 161-182.  The Rust function is generic over a
caller-supplied error value; only success versus failure is modelled. -/
def validate_prefixed_channel (channel : List Char) : Bool :=
  if !channel.isEmpty && !channel.contains ':' && !channel.contains ',' then
    prefixed_scan channel false
  else false

/-- One (flag-string, argument-list) pair of a mode change request. -/
abbrev ModePair := List Char × List (List Char)

/-- utils.rs lines 189-191: the predicate of the `ms.find` call inside
`validate_usermodes` (true on a character outside the user-mode alphabet). -/
def umodeFlagBad (c : Char) : Bool :=
  c != '+' && c != '-' && c != 'i' && c != 'o' && c != 'O' && c != 'r' && c != 'w'

/-- utils.rs lines 184-203, with the running parameter index made explicit
(the Rust code initialises `param_idx` to 1 and folds over the pairs). -/
def validate_usermodesFrom (param_idx : Nat) : List ModePair → Except CommandError Unit
  | [] => .ok ()
  | (ms, margs) :: rest =>
    if !ms.isEmpty then
      if (ms.findIdx? umodeFlagBad).isSome then
        .error (.UnknownUModeFlag param_idx)
      else if !margs.isEmpty then
        .error (.WrongParameter .MODEId param_idx)
      else
        validate_usermodesFrom (param_idx + 1) rest
    else
      .error (.WrongParameter .MODEId param_idx)

/-- utils.rs lines 184-203. -/
def validate_usermodes (modes : List ModePair) : Except CommandError Unit :=
  validate_usermodesFrom 1 modes

/-- Modelled from Rust std (external to this repository): the success test of
`str::parse::<usize>` - an optional leading plus sign followed by one or more
ASCII digits.  Numeric overflow of `usize` is not modelled; no claim depends
on it. -/
def parseUsizeOk (s : List Char) : Bool :=
  let digits := match s with
    | '+' :: rest => rest
    | _ => s
  !digits.isEmpty && digits.all (fun c => c.isDigit)

/-- Modelled from Rust std (external to this repository): the display form of
the `ParseIntError` returned by a failed `str::parse::<usize>`. -/
def parseUsizeErrMsg (s : List Char) : List Char :=
  if s.isEmpty then ("cannot parse integer from empty string").toList
  else ("invalid digit found in string").toList

/-- utils.rs lines 215-276: the fold over the characters of one flag-string
inside `validate_channelmodes`.  The mutable state is `mode_set`,
`arg_param_idx` and the remaining argument iterator (`margs_it`); on success
their final values are returned.  `arg_param_idx` is written but never read
by the Rust code; it is kept because it records the number of arguments
consumed. -/
def chmodeChars (target : List Char) (param_idx : Nat) :
    List Char → Bool → Nat → List (List Char) →
    Except CommandError (Bool × Nat × List (List Char))
  | [], mode_set, arg_param_idx, margs => .ok (mode_set, arg_param_idx, margs)
  | c :: cs, mode_set, arg_param_idx, margs =>
    if c == '+' then
      chmodeChars target param_idx cs true arg_param_idx margs
    else if c == '-' then
      chmodeChars target param_idx cs false arg_param_idx margs
    else if c == 'b' || c == 'e' || c == 'I' then
      -- consume argument (if any); the index advances unconditionally
      chmodeChars target param_idx cs mode_set (arg_param_idx + 1) margs.tail
    else if c == 'o' || c == 'v' || c == 'h' || c == 'q' || c == 'a' then
      match margs with
      | arg :: margs2 =>
        match validate_username arg with
        | .error e =>
          .error (.InvalidModeParam target c arg (validationErrorToString e))
        | .ok _ => chmodeChars target param_idx cs mode_set (arg_param_idx + 1) margs2
      | [] => .error (.InvalidModeParam target c [] (("No argument").toList))
    else if c == 'l' then
      if mode_set then
        match margs with
        | arg :: margs2 =>
          if !parseUsizeOk arg then
            .error (.InvalidModeParam target c arg (parseUsizeErrMsg arg))
          else chmodeChars target param_idx cs mode_set (arg_param_idx + 1) margs2
        | [] => .error (.InvalidModeParam target c [] (("No argument").toList))
      else
        match margs with
        | arg :: _ =>
          .error (.InvalidModeParam target c arg (("Unexpected argument").toList))
        | [] => chmodeChars target param_idx cs mode_set arg_param_idx margs
    else if c == 'k' then
      if mode_set then
        match margs with
        | _ :: margs2 => chmodeChars target param_idx cs mode_set (arg_param_idx + 1) margs2
        | [] => .error (.InvalidModeParam target c [] (("No argument").toList))
      else
        match margs with
        | arg :: _ =>
          .error (.InvalidModeParam target c arg (("Unexpected argument").toList))
        | [] => chmodeChars target param_idx cs mode_set arg_param_idx margs
    else if c == 'i' || c == 'm' || c == 't' || c == 'n' || c == 's' then
      chmodeChars target param_idx cs mode_set arg_param_idx margs
    else
      .error (.UnknownMode param_idx c target)

/-- utils.rs lines 205-285, with the running parameter index made explicit. -/
def validate_channelmodesFrom (target : List Char) (param_idx : Nat) :
    List ModePair → Except CommandError Unit
  | [] => .ok ()
  | (ms, margs) :: rest =>
    if !ms.isEmpty then
      match chmodeChars target param_idx ms false (param_idx + 1) margs with
      | .error e => .error e
      | .ok _ => validate_channelmodesFrom target (param_idx + margs.length + 1) rest
    else
      .error (.WrongParameter .MODEId param_idx)

/-- utils.rs lines 205-285. -/
def validate_channelmodes (target : List Char) (modes : List ModePair) :
    Except CommandError Unit :=
  validate_channelmodesFrom target 1 modes

/-- utils.rs lines 287-293 (the misspelled name is kept from the source). -/
def starts_single_wilcards (pattern text : List Char) : Bool :=
  if pattern.length ≤ text.length then
    (pattern.zip text).all (fun pc => pc.1 == '?' || pc.1 == pc.2)
  else false

/-- Outcome of the `match_wildcard` main loop: a Rust panic, an early
`return false`, or normal loop exit with the final remaining text. -/
inductive MwStep where
  | panicked : MwStep
  | retFalse : MwStep
  | finished : List Char → MwStep
deriving DecidableEq, Repr

/-- utils.rs lines 314-317: the inner scan loop `while i <= t.len()-m.len()
&& !starts_single_wilcards(m, &t[i..])`, run from index `i` for the
given number of remaining candidate positions (the caller passes
`t.length - m.length + 1` positions, covering `i = 0 .. t.len()-m.len()`). -/
def findOccAux (m t : List Char) : Nat → Nat → Option Nat
  | _, 0 => none
  | i, steps + 1 =>
    if starts_single_wilcards m (t.drop i) then some i
    else findOccAux m t (i + 1) steps

/-- utils.rs lines 299-331: the `while !pat.is_empty()` loop of
`match_wildcard`, with fuel for structural recursion (the pattern shrinks by
at least one character per iteration, so fuel `pat.length` always suffices;
fuel exhaustion on a non-empty pattern is unreachable).  The arguments after
the fuel are `pat`, `t` and the `asterisk` flag.  Where the Rust code
computes `t.len()-m.len()` with `m.len() > t.len()`, the unsigned
subtraction underflows and the surrounding code panics (in release builds
the wrapped bound lets `i` run past `t.len()` and the slice `&t[i..]`
panics); this is modelled as `MwStep.panicked`. -/
def mwLoopF : Nat → List Char → List Char → Bool → MwStep
  | _, [], t, _ => .finished t
  | 0, _ :: _, _, _ => .panicked
  | fuel + 1, p :: ps, t, asterisk =>
    match (p :: ps).findIdx? (fun c => c == '*') with
    | some i =>
      -- a star was found: m = pat[..i], newpat = pat[i+1..], cur_ast = true
      let m := (p :: ps).take i
      let newpat := (p :: ps).drop (i + 1)
      if m.isEmpty then
        mwLoopF fuel newpat t true
      else if !asterisk then
        if starts_single_wilcards m t then mwLoopF fuel newpat (t.drop m.length) true
        else .retFalse
      else
        -- middle segment after an asterisk (cur_ast is true here)
        if m.length > t.length then .panicked
        else
          match findOccAux m t 0 (t.length - m.length + 1) with
          | some j => mwLoopF fuel newpat (t.drop (j + m.length)) true
          | none => .retFalse
    | none =>
      -- no star left: m = pat, newpat is empty, cur_ast = false
      if !asterisk then
        if starts_single_wilcards (p :: ps) t then
          mwLoopF fuel [] (t.drop (p :: ps).length) true
        else .retFalse
      else
        -- last segment, not followed by an asterisk: anchor at the end
        if (p :: ps).length > t.length then .panicked
        else
          if starts_single_wilcards (p :: ps) (t.drop (t.length - (p :: ps).length)) then
            mwLoopF fuel [] [] true
          else .retFalse

/-- utils.rs lines 295-334.  `none` models a Rust panic, `some b` a normal
return of `b`. -/
def match_wildcard (pattern text : List Char) : Option Bool :=
  match mwLoopF pattern.length pattern text false with
  | .panicked => none
  | .retFalse => some false
  | .finished t =>
    some ((!pattern.isEmpty && pattern.getLastD ' ' == '*') || t.isEmpty)

/-- utils.rs lines 95-102: `IRCLinesCodec::encode` appends the line followed
by CR and LF to the output buffer (the `reserve` call only preallocates). -/
def IRCLinesCodec.encode (line : List Char) (buf : List Char) : List Char :=
  buf ++ line ++ ['\r', '\n']

/-- Modelled from the spec: `IRCLinesCodec::decode` (utils.rs lines 105-112)
delegates to tokio's `LinesCodec::decode`, whose source is not part of this
repository.  Following the spec: scan the buffered bytes for the next line
terminator, accepting bare LF or CRLF; strip the terminator and return the
line together with the unconsumed remainder; if no complete line is buffered
return no line; if more than the configured maximum number of bytes has
accumulated without a terminator, return the fatal too-long outcome
(modelled as `Except.error ()`). -/
def IRCLinesCodec.decode (max_length : Nat) (buf : List Char) :
    Except Unit (Option (List Char) × List Char) :=
  match buf.findIdx? (fun c => c == '\n') with
  | some i =>
    let raw := buf.take i
    let line := if raw.getLast? == some '\r' then raw.dropLast else raw
    .ok (some line, buf.drop (i + 1))
  | none =>
    if buf.length > max_length then .error () else .ok (none, buf)

/-- utils.rs lines 337-355. -/
def normalize_sourcemask (mask : List Char) : List Char :=
  match mask.findIdx? (fun c => c == '!') with
  | some p =>
    if ((mask.drop (p + 1)).findIdx? (fun c => c == '@')).isNone then
      mask ++ ('@' :: '*' :: [])
    else mask
  | none =>
    match mask.findIdx? (fun c => c == '@') with
    | some p2 => mask.take p2 ++ ('!' :: '*' :: []) ++ mask.drop p2
    | none => mask ++ ('!' :: '*' :: '@' :: '*' :: [])

-- Evaluation checks mirroring the utils.rs test module (test_match_wildcard,
-- test_validate_username, test_validate_prefixed_channel,
-- test_validate_usermodes, test_validate_channelmodes,
-- test_normalize_sourcemask).
example : match_wildcard ("somebody").toList ("somebody").toList = some true := by decide
example : match_wildcard ("somebody").toList ("somebady").toList = some false := by decide
example : match_wildcard ("s?meb?dy").toList ("samebady").toList = some true := by decide
example : match_wildcard ("s?mec?dy").toList ("samebady").toList = some false := by decide
example : match_wildcard ("somebody").toList ("somebod").toList = some false := by decide
example : match_wildcard ("somebody").toList ("somebodyis").toList = some false := by decide
example : match_wildcard ("so*body").toList ("somebody").toList = some true := by decide
example : match_wildcard ("so**body").toList ("somebody").toList = some true := by decide
example : match_wildcard ("so*body").toList ("sobody").toList = some true := by decide
example : match_wildcard ("so*body*").toList ("sobody").toList = some true := by decide
example : match_wildcard ("*so*body*").toList ("sobody").toList = some true := by decide
example : match_wildcard ("so*body").toList ("sbody").toList = some false := by decide
example : match_wildcard ("*so*body*").toList ("sbody").toList = some false := by decide
example : match_wildcard ("so*body").toList ("something body").toList = some true := by decide
example : match_wildcard ("so*bo*").toList ("somebody").toList = some true := by decide
example : match_wildcard ("*").toList ("Alice and Others").toList = some true := by decide
example : match_wildcard ("").toList ("Alice and Others").toList = some false := by decide
example : match_wildcard ("").toList ("").toList = some true := by decide
example : match_wildcard ("*").toList ("").toList = some true := by decide
example : match_wildcard ("***").toList ("").toList = some true := by decide
example : match_wildcard ("* and Others").toList ("Alice and Others").toList = some true := by
  decide
example : match_wildcard ("* and Others").toList ("Alice and others").toList = some false := by
  decide
example : match_wildcard ("* and Others").toList ("Aliceand Others").toList = some false := by
  decide
example : match_wildcard ("* and *").toList ("Alice and Others").toList = some true := by decide
example : match_wildcard ("*** and **").toList ("Alice and Others").toList = some true := by
  decide
example : match_wildcard ("* and *").toList ("Aliceand Others").toList = some false := by decide
example : match_wildcard ("* and *").toList ("Alice andOthers").toList = some false := by decide
example : match_wildcard ("*?and *").toList ("Aliceand Others").toList = some true := by decide
example : match_wildcard ("* and?*").toList ("Alice andOthers").toList = some true := by decide
example : match_wildcard ("*?and *").toList ("Aliceund Others").toList = some false := by decide
example : match_wildcard ("la*la").toList ("labulabela").toList = some true := by decide
example : match_wildcard ("la*la").toList ("labulabele").toList = some false := by decide
example : match_wildcard ("la*la*la").toList ("labulalabela").toList = some true := by decide
example : match_wildcard ("la*l?").toList ("labulabela").toList = some true := by decide
example : match_wildcard ("la*?a").toList ("labulabele").toList = some false := by decide
example : match_wildcard ("la*l?").toList ("labulabeka").toList = some false := by decide
example : (validate_username ("ala").toList).isOk = true := by decide
example : (validate_username ("#ala").toList).isOk = false := by decide
example : (validate_username ("&ala").toList).isOk = false := by decide
example : (validate_username ("a.la").toList).isOk = false := by decide
example : (validate_username ("a,la").toList).isOk = false := by decide
example : (validate_username ("aL:a").toList).isOk = false := by decide
example : validate_prefixed_channel ("#ala").toList = true := by decide
example : validate_prefixed_channel ("&ala").toList = true := by decide
example : validate_prefixed_channel ("&al:a").toList = false := by decide
example : validate_prefixed_channel ("#al,a").toList = false := by decide
example : validate_prefixed_channel ("ala").toList = false := by decide
example : validate_prefixed_channel ("~#ala").toList = true := by decide
example : validate_prefixed_channel ("&#ala").toList = true := by decide
example : validate_prefixed_channel ("~&ala").toList = true := by decide
example : validate_prefixed_channel ("&&ala").toList = true := by decide
example : validate_prefixed_channel ("@&ala").toList = true := by decide
example : validate_prefixed_channel ("*#ala").toList = false := by decide
example : validate_prefixed_channel ("*&ala").toList = false := by decide
example : validate_usermodes [(("+io-rw").toList, []), (("-O").toList, [])] = .ok () := by
  decide
example : validate_usermodes [(("+io-rw").toList, [("xx").toList]), (("-O").toList, [])] =
    .error (.WrongParameter .MODEId 1) := by decide
example : validate_usermodes [(("+io-rw").toList, []), (("-x").toList, [])] =
    .error (.UnknownUModeFlag 2) := by decide
example : validate_channelmodes ("#xchan").toList
    [(("+nt").toList, []), (("-sm").toList, [])] = .ok () := by decide
example : validate_channelmodes ("#xchan").toList
    [(("+nlt").toList, [("22").toList]), (("-s+km").toList, [("xxyy").toList])] = .ok () := by
  decide
example : validate_channelmodes ("#xchan").toList
    [(("+ibl-h").toList, [("*dudu.com").toList, ("22").toList, ("derek").toList])] =
      .ok () := by decide
example : validate_channelmodes ("#xchan").toList
    [(("-nlt").toList, []), (("+s-km").toList, [])] = .ok () := by decide
example : validate_channelmodes ("#xchan").toList
    [(("+ot").toList, [("barry").toList]), (("-nh").toList, [("guru").toList]),
     (("+vm").toList, [("jerry").toList])] = .ok () := by decide
example : validate_channelmodes ("#xchan").toList
    [(("+nt").toList, []), (("-sum").toList, [])] =
      .error (.UnknownMode 2 'u' ("#xchan").toList) := by decide
example : validate_channelmodes ("#xchan").toList
    [(("+nlt").toList, []), (("-s+km").toList, [("xxyy").toList])] =
      .error (.InvalidModeParam ("#xchan").toList 'l' [] (("No argument").toList)) := by
  decide
example : validate_channelmodes ("#xchan").toList
    [(("+ot").toList, [("barry").toList]), (("-nh").toList, [("guru").toList]),
     (("+vm").toList, [("jer:ry").toList])] =
      .error (.InvalidModeParam ("#xchan").toList 'v' ("jer:ry").toList
        (validationErrorToString
          ⟨("Username must not contains \x27.\x27, \x27,\x27 or \x27:\x27.").toList⟩)) := by
  decide
example : normalize_sourcemask ("ax*!*bob*@*.com").toList = ("ax*!*bob*@*.com").toList := by
  decide
example : normalize_sourcemask ("ax*@*.com").toList = ("ax*!*@*.com").toList := by decide
example : normalize_sourcemask ("ax*!bo*").toList = ("ax*!bo*@*").toList := by decide
example : normalize_sourcemask ("*ax@*.com").toList = ("*ax!*@*.com").toList := by decide
example : normalize_sourcemask ("u*xn!b*o").toList = ("u*xn!b*o@*").toList := by decide
example : normalize_sourcemask ("*").toList = ("*!*@*").toList := by decide
example : normalize_sourcemask ("bob.com").toList = ("bob.com!*@*").toList := by decide

-- ===================================================================
-- Shared helper lemmas
-- ===================================================================

/-- A `findIdx?` search for an equality test finds the first occurrence. -/
theorem findIdx_beq_aux (a : Char) (u v : List Char) (hu : a ∉ u) (i : Nat) :
    List.findIdx? (fun c => c == a) (u ++ a :: v) i = some (u.length + i) := by
  induction u generalizing i with
  | nil => simp [List.findIdx?_cons]
  | cons b u2 ih =>
    have hb : (b == a) = false := by
      rw [beq_eq_false_iff_ne]
      intro h
      exact hu (by simp [h])
    have hu2 : a ∉ u2 := fun h => hu (List.mem_cons_of_mem _ h)
    rw [List.cons_append, List.findIdx?_cons, hb]
    simp only [if_false, Bool.false_eq_true]
    rw [ih hu2 (i + 1)]
    congr 1
    simp
    omega

/-- A `findIdx?` search for an absent character returns `none`. -/
theorem findIdx_beq_none (a : Char) (l : List Char) (h : a ∉ l) :
    List.findIdx? (fun c => c == a) l = none := by
  rw [List.findIdx?_eq_none_iff]
  intro x hx
  rw [beq_eq_false_iff_ne]
  intro hxa
  exact h (hxa ▸ hx)

@[simp]
theorem except_isOk_ok {ε α : Type} (a : α) : (Except.ok a : Except ε α).isOk = true := rfl

@[simp]
theorem except_isOk_error {ε α : Type} (e : ε) :
    (Except.error e : Except ε α).isOk = false := rfl

-- ===================================================================
-- C1
-- ===================================================================

/-- C1: the claim says `match_wildcard` is total and never panics, in
particular on pairs where a pattern segment after a star is longer than the
remaining subject.  The code is wrong there: on pattern `*ab` and subject
`a` the evaluation of `t.len()-m.len()` underflows (m = `ab` has length 2,
the remaining subject length 1) and the function panics; the model returns
`none` (panic) at that input. -/
theorem match_wildcard_underflow_panic :
    match_wildcard ("*ab").toList ("a").toList = none := by decide

-- ===================================================================
-- C2
-- ===================================================================

/-- C2 counterexample: the claim (success iff non-empty, first character not
a channel sigil, and no forbidden character) is false at the concrete input
`""`: `validate_username` accepts the empty string, because the emptiness
test at utils.rs line 131 only guards the first-byte inspection and the
empty string then falls into the `Ok` branch. -/
theorem validate_username_claim_cex :
    ¬ (∀ s : List Char, (validate_username s).isOk = true ↔
        (s ≠ [] ∧ s.head? ≠ some '#' ∧ s.head? ≠ some '&' ∧
         '.' ∉ s ∧ ':' ∉ s ∧ ',' ∉ s)) := by
  intro h
  exact (((h []).mp (by decide)).1) rfl

/-- C2 (amended): for every string s, `validate_username(s)` succeeds if and
only if (s is empty, or the first character of s is neither `#` nor `&`) and
s contains none of the characters `.`, `:`, `,`; in particular the empty
string is accepted. -/
theorem validate_username_characterization (s : List Char) :
    (validate_username s).isOk = true ↔
      ((s = [] ∨ (s.head? ≠ some '#' ∧ s.head? ≠ some '&')) ∧
        '.' ∉ s ∧ ':' ∉ s ∧ ',' ∉ s) := by
  cases s with
  | nil => decide
  | cons c cs =>
    by_cases h1 : c = '#'
    · subst h1
      simp [validate_username]
    · by_cases h2 : c = '&'
      · subst h2
        simp [validate_username]
      · by_cases hd : ('.' : Char) ∈ c :: cs <;>
          by_cases hc : (':' : Char) ∈ c :: cs <;>
            by_cases hm : (',' : Char) ∈ c :: cs <;>
              simp [validate_username, List.elem_eq_mem, hd, hc, hm, h1, h2]

-- ===================================================================
-- C3
-- ===================================================================

/-- C3 counterexample: at the concrete input `[("" , [])]` both validators
fail, carrying the current parameter index, but with the error kind
`WrongParameter(MODE, 1)` (utils.rs lines 200 and 282), not
`MissingParameter(1)` as the claim states. -/
theorem empty_flag_error_kind_cex :
    validate_usermodes [([], [])] = .error (.WrongParameter .MODEId 1) ∧
    validate_channelmodes ("#c").toList [([], [])] = .error (.WrongParameter .MODEId 1) ∧
    validate_usermodes [([], [])] ≠ .error (.MissingParameter 1) ∧
    validate_channelmodes ("#c").toList [([], [])] ≠ .error (.MissingParameter 1) := by
  refine ⟨rfl, rfl, ?_, ?_⟩ <;> decide

/-- C3 (amended): whenever `validate_usermodes` or `validate_channelmodes`
reaches a pair whose flag-string is the empty string, it fails with the
error kind `WrongParameter(MODE, index)` carrying the current parameter
index (the claimed kind `MissingParameter` is never produced by these
functions). -/
theorem empty_flag_wrong_parameter (target : List Char) (idx : Nat)
    (args : List (List Char)) (rest : List ModePair) :
    validate_usermodesFrom idx (([], args) :: rest) =
      .error (.WrongParameter .MODEId idx) ∧
    validate_channelmodesFrom target idx (([], args) :: rest) =
      .error (.WrongParameter .MODEId idx) ∧
    validate_usermodes (([], args) :: rest) = .error (.WrongParameter .MODEId 1) ∧
    validate_channelmodes target (([], args) :: rest) =
      .error (.WrongParameter .MODEId 1) :=
  ⟨rfl, rfl, rfl, rfl⟩

-- ===================================================================
-- C10
-- ===================================================================

/-- C10 counterexample: the claim quantifies over every flag-string f, but
for the empty flag-string the two pairs behave differently at the concrete
input target `#c`: `("", [])` fails with `WrongParameter(MODE, 1)` while
`("-", [])` succeeds, because the emptiness check precedes the character
fold. -/
theorem unset_sign_cex :
    validate_channelmodes ("#c").toList [([], [])] = .error (.WrongParameter .MODEId 1) ∧
    validate_channelmodes ("#c").toList [(['-'], [])] = .ok () := by
  exact ⟨rfl, rfl⟩

/-- C10 (amended): for every non-empty flag-string f, every target, index,
argument list and remainder, validating the pair `(f, args)` yields the same
outcome as validating the pair `("-" ++ f, args)` (the initial unset sign
state is the boolean false, exactly what an explicit leading minus sets);
and the sign-dependent modes `l` and `k` encountered before any sign
character require zero arguments, reporting `Unexpected argument` when one
is supplied and succeeding when none is. -/
theorem unset_sign_minus_equiv (target : List Char) (idx : Nat) (f : List Char)
    (args : List (List Char)) (rest : List ModePair) (arg : List Char)
    (hf : f ≠ []) :
    (validate_channelmodesFrom target idx ((('-' :: f), args) :: rest) =
      validate_channelmodesFrom target idx ((f, args) :: rest)) ∧
    validate_channelmodes target [(['l'], arg :: args)] =
      .error (.InvalidModeParam target 'l' arg (("Unexpected argument").toList)) ∧
    validate_channelmodes target [(['k'], arg :: args)] =
      .error (.InvalidModeParam target 'k' arg (("Unexpected argument").toList)) ∧
    validate_channelmodes target [(['l'], [])] = .ok () ∧
    validate_channelmodes target [(['k'], [])] = .ok () := by
  cases f with
  | nil => exact absurd rfl hf
  | cons c cs => exact ⟨rfl, rfl, rfl, rfl, rfl⟩

/-- Witness for the amended C10 theorem at a concrete input. -/
theorem unset_sign_minus_equiv_witness :
    validate_channelmodesFrom ("#c").toList 1 [(['-', 'n'], [])] =
      validate_channelmodesFrom ("#c").toList 1 [(['n'], [])] :=
  (unset_sign_minus_equiv ("#c").toList 1 ['n'] [] [] [] (by decide)).1

-- ===================================================================
-- C4
-- ===================================================================

/-- C4 counterexample: at the concrete input target `#c`, pairs
`[("+n", ["x"]), ("Z", [])]`, the first pair consumes zero arguments (its
final `arg_param_idx` stays at 2, the value it started from), so the claim
predicts that the failure at the second pair carries index
1 + (0 + 1) = 2; the code advances the index by the argument-list length
plus one (utils.rs line 278) and reports `UnknownMode` with index 3. -/
theorem channelmodes_index_cex :
    chmodeChars ("#c").toList 1 ['+', 'n'] false 2 [("x").toList] =
      .ok (true, 2, [("x").toList]) ∧
    validate_channelmodes ("#c").toList [(['+', 'n'], [("x").toList]), (['Z'], [])] =
      .error (.UnknownMode 3 'Z' ("#c").toList) ∧
    validate_channelmodes ("#c").toList [(['+', 'n'], [("x").toList]), (['Z'], [])] ≠
      .error (.UnknownMode 2 'Z' ("#c").toList) := by
  refine ⟨rfl, rfl, ?_⟩
  decide

/-- C4 (amended): after each pair the parameter index advances by exactly
the length of that pair's argument list plus 1 (not by the number of
arguments consumed); consequently, once the preceding pairs `pre` validate
successfully from index `idx`, validation of `pre ++ post` continues on
`post` at index `idx + Σ (|args| + 1)` over `pre` (with `idx = 1` at the top
level, any failure inside `post`'s first pair carries that index), and the
index is strictly monotonically increasing. -/
theorem channelmodes_index_advance (target : List Char) (idx : Nat)
    (pre post : List ModePair)
    (hok : validate_channelmodesFrom target idx pre = .ok ()) :
    validate_channelmodesFrom target idx (pre ++ post) =
      validate_channelmodesFrom target
        (idx + (pre.map (fun p => p.2.length + 1)).sum) post ∧
    (pre ≠ [] → idx < idx + (pre.map (fun p => p.2.length + 1)).sum) := by
  refine ⟨?_, ?_⟩
  · induction pre generalizing idx with
    | nil => simp
    | cons hd tl ih =>
      obtain ⟨ms, margs⟩ := hd
      simp only [validate_channelmodesFrom, List.cons_append] at hok ⊢
      by_cases hms : ms.isEmpty
      · simp [hms] at hok
      · simp only [hms, Bool.not_false, if_true] at hok ⊢
        cases hcm : chmodeChars target idx ms false (idx + 1) margs with
        | error e => simp [hcm] at hok
        | ok st =>
          simp only [hcm] at hok ⊢
          simp only [List.append_eq]
          rw [ih _ hok]
          have harith : idx + margs.length + 1 +
              (tl.map (fun p => p.2.length + 1)).sum =
              idx + ((margs.length + 1) + (tl.map (fun p => p.2.length + 1)).sum) := by
            omega
          rw [harith]
          simp
  · intro hne
    cases pre with
    | nil => exact absurd rfl hne
    | cons hd tl =>
      simp only [List.map_cons, List.sum_cons]
      omega

/-- Witness for the amended C4 theorem at a concrete input: the first pair
has a one-element argument list, so validation of the second pair continues
at index 1 + (1 + 1) = 3. -/
theorem channelmodes_index_advance_witness :
    validate_channelmodesFrom ("#c").toList 1
        ([(['+', 'n'], [("x").toList])] ++ [(['Z'], [])]) =
      validate_channelmodesFrom ("#c").toList 3 [(['Z'], [])] :=
  ((channelmodes_index_advance ("#c").toList 1 [(['+', 'n'], [("x").toList])]
    [(['Z'], [])] (by decide)).1).trans (by decide)

-- ===================================================================
-- C5
-- ===================================================================

/-- Spec-side notion of a rank-prefix-or-ampersand character (the characters
skipped by the scan described in the claim). -/
def rankOrAmp (c : Char) : Bool :=
  c == '~' || c == '@' || c == '%' || c == '+' || c == '&'

/-- Spec-side scan for `validate_prefixed_channel`, written from the claim:
skip rank-prefix characters and ampersands; if the first non-skipped
character is `#` the string is a channel exactly when at least one character
follows it; otherwise it is a channel exactly when the character
immediately preceding the stop position is an ampersand (no preceding
character means not a channel, so in particular a leading `*` is never
valid). -/
def prefixed_channel_spec (s : List Char) : Bool :=
  match s.dropWhile rankOrAmp with
  | [] => false
  | c :: rest =>
    if c == '#' then !rest.isEmpty
    else
      match (s.takeWhile rankOrAmp).getLast? with
      | some d => d == '&'
      | none => false

/-- The source scan loop computes the spec-side scan, for any initial value
of the `last_amp` flag (the flag only matters when every character is
skipped before the stop position, in which case it stands for the character
preceding the whole scan). -/
theorem prefixed_scan_eq (s : List Char) (b : Bool) :
    prefixed_scan s b =
      (match s.dropWhile rankOrAmp with
       | [] => false
       | c :: rest =>
         if c == '#' then !rest.isEmpty
         else
           match (s.takeWhile rankOrAmp).getLast? with
           | some d => d == '&'
           | none => b) := by
  induction s generalizing b with
  | nil => rfl
  | cons c rest ih =>
    by_cases hc : rankOrAmp c = true
    · have hcU : (c == '~' || c == '@' || c == '%' || c == '+' || c == '&') = true := hc
      simp only [prefixed_scan, hcU, if_true]
      rw [ih (c == '&')]
      simp only [List.dropWhile_cons, List.takeWhile_cons, hc, if_true,
        List.getLast?_cons]
      cases hdw : rest.dropWhile rankOrAmp with
      | nil => rfl
      | cons d rest2 =>
        by_cases hd : d == '#'
        · simp [hd]
        · simp only [hd, if_false, Bool.false_eq_true]
          cases hgl : (rest.takeWhile rankOrAmp).getLast? with
          | none => simp [hgl]
          | some e => simp [hgl]
    · have hcU : (c == '~' || c == '@' || c == '%' || c == '+' || c == '&') = false := by
        rw [Bool.eq_false_iff]
        exact hc
      simp only [prefixed_scan, hcU, Bool.false_eq_true, if_false,
        List.dropWhile_cons, List.takeWhile_cons, hc]
      by_cases hsh : c == '#'
      · simp [hsh]
      · simp [hsh]

/-- C5: `validate_prefixed_channel(s)` fails if s is empty or contains `:`
or `,`; otherwise it succeeds exactly when the spec-side scan accepts:
skipping rank-prefix characters and ampersands, either the first
non-skipped character is `#` with at least one character after it, or the
character immediately preceding the first non-skipped character is `&`; and
a string with a leading `*` is never valid. -/
theorem validate_prefixed_channel_correct (s : List Char) :
    (validate_prefixed_channel s = true ↔
      (s ≠ [] ∧ ':' ∉ s ∧ ',' ∉ s ∧ prefixed_channel_spec s = true)) ∧
    (s.head? = some '*' → validate_prefixed_channel s = false) := by
  constructor
  · by_cases h1 : s = []
    · subst h1
      simp [validate_prefixed_channel]
    · by_cases h2 : (':' : Char) ∈ s
      · simp [validate_prefixed_channel, List.elem_eq_mem, h1, h2]
      · by_cases h3 : (',' : Char) ∈ s
        · simp [validate_prefixed_channel, List.elem_eq_mem, h1, h2, h3]
        · have hne : s.isEmpty = false := by
            rw [Bool.eq_false_iff]
            rw [ne_eq, List.isEmpty_iff]
            exact h1
          simp [validate_prefixed_channel, List.elem_eq_mem, hne, h1, h2, h3]
          rw [prefixed_scan_eq s false]
          rfl
  · intro hstar
    cases s with
    | nil => simp at hstar
    | cons c cs =>
      simp only [List.head?_cons, Option.some.injEq] at hstar
      subst hstar
      unfold validate_prefixed_channel
      split
      · rfl
      · rfl

/-- Witness for the C5 theorem at concrete inputs. -/
theorem validate_prefixed_channel_correct_witness :
    validate_prefixed_channel ("*ala").toList = false ∧
    validate_prefixed_channel ("&ala").toList = true :=
  ⟨(validate_prefixed_channel_correct ("*ala").toList).2 rfl,
   (validate_prefixed_channel_correct ("&ala").toList).1.mpr
     ⟨by decide, by decide, by decide, by decide⟩⟩

-- ===================================================================
-- C6
-- ===================================================================

/-- On a pattern consisting solely of stars, every segment is empty, so the
`match_wildcard` loop runs to normal exit without touching the subject. -/
theorem mwLoopF_allstar (p : List Char) (h : ∀ c ∈ p, c = '*') (s : List Char) (a : Bool) :
    mwLoopF p.length p s a = .finished s := by
  induction p generalizing a with
  | nil => rfl
  | cons c rest ih =>
    have hc : c = '*' := h c (List.mem_cons_self c rest)
    subst hc
    have hrest : ∀ d ∈ rest, d = '*' := fun d hd => h d (List.mem_cons_of_mem _ hd)
    have hstep : mwLoopF ('*' :: rest).length ('*' :: rest) s a =
        mwLoopF rest.length rest s true := rfl
    rw [hstep]
    exact ih hrest true

/-- C6: the special glob cases hold: the empty pattern matches only the
empty subject, a non-empty pattern made solely of `*` characters (in
particular `*` itself) matches every subject, and `?` matches exactly one
subject character (the pattern `?` accepts exactly the subjects of length
one).  `some` reflects that no panic occurs on these inputs. -/
theorem match_wildcard_special_cases (p s : List Char) :
    match_wildcard [] [] = some true ∧
    (s ≠ [] → match_wildcard [] s = some false) ∧
    ((∀ c ∈ p, c = '*') → p ≠ [] → match_wildcard p s = some true) ∧
    match_wildcard ['*'] s = some true ∧
    match_wildcard ['?'] s = some (decide (s.length = 1)) := by
  refine ⟨rfl, ?_, ?_, ?_, ?_⟩
  · intro hs
    cases s with
    | nil => exact absurd rfl hs
    | cons c cs => rfl
  · intro hall hp
    unfold match_wildcard
    rw [mwLoopF_allstar p hall s false]
    have hlast : p.getLastD ' ' = '*' := by
      rw [List.getLastD_eq_getLast?, List.getLast?_eq_getLast p hp]
      simpa using hall _ (List.getLast_mem hp)
    have hne : p.isEmpty = false := by
      rw [Bool.eq_false_iff, ne_eq, List.isEmpty_iff]
      exact hp
    show some ((!p.isEmpty && (p.getLastD ' ' == '*')) || s.isEmpty) = some true
    rw [hlast, hne]
    simp
  · unfold match_wildcard
    rw [mwLoopF_allstar ['*'] (by decide) s false]
    rfl
  · cases s with
    | nil => rfl
    | cons c cs =>
      have hssw : starts_single_wilcards ['?'] (c :: cs) = true := by
        simp only [starts_single_wilcards]
        rw [if_pos (show (['?'] : List Char).length ≤ (c :: cs).length by simp)]
        simp
      have hred : mwLoopF (1 : Nat) ['?'] (c :: cs) false =
          if starts_single_wilcards ['?'] (c :: cs) then
            mwLoopF 0 [] ((c :: cs).drop 1) true
          else .retFalse := rfl
      unfold match_wildcard
      rw [show (['?'] : List Char).length = 1 from rfl, hred, hssw]
      cases cs with
      | nil => rfl
      | cons d ds => rfl

/-- Witness for the C6 theorem at concrete inputs, discharging the
hypotheses of its conditional parts. -/
theorem match_wildcard_special_cases_witness :
    match_wildcard [] ['x'] = some false ∧
    match_wildcard ['*', '*'] ['x', 'y'] = some true :=
  ⟨(match_wildcard_special_cases ['*', '*'] ['x']).2.1 (by decide),
   (match_wildcard_special_cases ['*', '*'] ['x', 'y']).2.2.1 (by decide) (by decide)⟩

-- ===================================================================
-- C7
-- ===================================================================

/-- C7: for every line with no CR or LF and length at most the configured
maximum, encoding appends exactly the line followed by CR then LF (to any
buffer), and decoding the encoded buffer returns the original line with the
buffer fully consumed. -/
theorem codec_round_trip (line : List Char) (max_length : Nat)
    (hr : '\r' ∉ line) (hn : '\n' ∉ line) (hlen : line.length ≤ max_length) :
    (∀ buf, IRCLinesCodec.encode line buf = buf ++ line ++ ['\r', '\n']) ∧
    IRCLinesCodec.decode max_length (IRCLinesCodec.encode line []) =
      .ok (some line, []) := by
  refine ⟨fun buf => rfl, ?_⟩
  have hbuf : IRCLinesCodec.encode line [] = (line ++ ['\r']) ++ '\n' :: [] := by
    simp [IRCLinesCodec.encode]
  have hnu : '\n' ∉ line ++ ['\r'] := by
    intro hmem
    rcases List.mem_append.mp hmem with h | h
    · exact hn h
    · simp at h
  have hfind : List.findIdx? (fun c => c == '\n') (IRCLinesCodec.encode line []) =
      some (line.length + 1) := by
    rw [hbuf, findIdx_beq_aux '\n' (line ++ ['\r']) [] hnu 0]
    simp
  have htake : (IRCLinesCodec.encode line []).take (line.length + 1) = line ++ ['\r'] := by
    rw [hbuf]
    rw [show line.length + 1 = (line ++ ['\r']).length by simp]
    exact List.take_left _ _
  have hdrop : (IRCLinesCodec.encode line []).drop (line.length + 1 + 1) = [] := by
    rw [hbuf, List.drop_append_eq_append_drop]
    simp
  unfold IRCLinesCodec.decode
  rw [hfind]
  simp only [htake, hdrop, List.getLast?_concat, List.dropLast_concat, beq_self_eq_true,
    if_true]

/-- Witness for the C7 theorem at a concrete input. -/
theorem codec_round_trip_witness :
    IRCLinesCodec.decode 10 (IRCLinesCodec.encode ("hi").toList []) =
      .ok (some ("hi").toList, []) :=
  (codec_round_trip ("hi").toList 10 (by decide) (by decide) (by decide)).2

-- ===================================================================
-- C8
-- ===================================================================

/-- C8: `normalize_sourcemask` is total (it is a plain function) and
satisfies the claimed case analysis: with a `!` present (first occurrence
after prefix u), the mask is kept and `@*` appended exactly when no `@`
occurs after that `!`; with no `!` but a `@` present (first occurrence after
prefix u), `!*` is inserted immediately before that `@`; with neither, the
mask gets `!*@*` appended; and the three concrete examples of the claim
hold. -/
theorem normalize_sourcemask_cases (mask u v : List Char) :
    (mask = u ++ '!' :: v → '!' ∉ u → '@' ∉ v →
      normalize_sourcemask mask = mask ++ ("@*").toList) ∧
    (mask = u ++ '!' :: v → '!' ∉ u → '@' ∈ v →
      normalize_sourcemask mask = mask) ∧
    ('!' ∉ mask → mask = u ++ '@' :: v → '@' ∉ u →
      normalize_sourcemask mask = u ++ ("!*").toList ++ '@' :: v) ∧
    ('!' ∉ mask → '@' ∉ mask →
      normalize_sourcemask mask = mask ++ ("!*@*").toList) ∧
    normalize_sourcemask ("*").toList = ("*!*@*").toList ∧
    normalize_sourcemask ("bob.com").toList = ("bob.com!*@*").toList ∧
    normalize_sourcemask ("ax*@*.com").toList = ("ax*!*@*.com").toList := by
  refine ⟨?_, ?_, ?_, ?_, by decide, by decide, by decide⟩
  · intro hm h1 h2
    subst hm
    unfold normalize_sourcemask
    rw [findIdx_beq_aux '!' u v h1 0]
    have hdropv : (u ++ '!' :: v).drop (u.length + 0 + 1) = v := by
      rw [List.drop_append_eq_append_drop]
      simp
    simp only [hdropv, findIdx_beq_none '@' v h2, Option.isNone_none, if_true]
    rfl
  · intro hm h1 h2
    subst hm
    unfold normalize_sourcemask
    rw [findIdx_beq_aux '!' u v h1 0]
    have hdropv : (u ++ '!' :: v).drop (u.length + 0 + 1) = v := by
      rw [List.drop_append_eq_append_drop]
      simp
    have hsome : (v.findIdx? (fun c => c == '@')).isNone = false := by
      cases hf : v.findIdx? (fun c => c == '@') with
      | none =>
        rw [List.findIdx?_eq_none_iff] at hf
        have := hf '@' h2
        simp at this
      | some j => rfl
    simp only [hdropv, hsome, Bool.false_eq_true, if_false]
  · intro h1 hm h2
    subst hm
    unfold normalize_sourcemask
    rw [findIdx_beq_none '!' (u ++ '@' :: v) h1,
      findIdx_beq_aux '@' u v h2 0]
    simp only []
    have htakeu : (u ++ '@' :: v).take (u.length + 0) = u := by
      rw [show u.length + 0 = u.length by omega]
      exact List.take_left _ _
    have hdropu : (u ++ '@' :: v).drop (u.length + 0) = '@' :: v := by
      rw [show u.length + 0 = u.length by omega]
      exact List.drop_left _ _
    rw [htakeu, hdropu]
    rfl
  · intro h1 h2
    unfold normalize_sourcemask
    rw [findIdx_beq_none '!' mask h1, findIdx_beq_none '@' mask h2]
    rfl

/-- Witness for the C8 theorem at a concrete input (the insertion case). -/
theorem normalize_sourcemask_cases_witness :
    normalize_sourcemask ("a@b").toList = ("a!*@b").toList := by
  have h := (normalize_sourcemask_cases ("a@b").toList ['a'] ['b']).2.2.1
    (by decide) (by decide) (by decide)
  exact h.trans (by decide)

-- ===================================================================
-- C9
-- ===================================================================

/-- C9: `normalize_sourcemask` is idempotent on masks of canonical shape
`nick!user@host` (exactly one `!`, which precedes the single `@`): such a
mask already contains a `!` with a `@` after it, so it is returned
unchanged, and applying the function twice equals applying it once. -/
theorem normalize_sourcemask_idempotent (m nick user host : List Char)
    (hm : m = nick ++ '!' :: (user ++ '@' :: host))
    (hn1 : '!' ∉ nick) (hn2 : '@' ∉ nick)
    (hu1 : '!' ∉ user) (hu2 : '@' ∉ user)
    (hh1 : '!' ∉ host) (hh2 : '@' ∉ host) :
    normalize_sourcemask (normalize_sourcemask m) = normalize_sourcemask m := by
  have hid : normalize_sourcemask m = m := by
    subst hm
    unfold normalize_sourcemask
    rw [findIdx_beq_aux '!' nick (user ++ '@' :: host) hn1 0]
    simp only []
    have hdrop : (nick ++ '!' :: (user ++ '@' :: host)).drop (nick.length + 0 + 1) =
        user ++ '@' :: host := by
      rw [List.drop_append_eq_append_drop]
      simp
    rw [hdrop, findIdx_beq_aux '@' user host hu2 0]
    rfl
  rw [hid, hid]

/-- Witness for the C9 theorem at a concrete canonical mask. -/
theorem normalize_sourcemask_idempotent_witness :
    normalize_sourcemask (normalize_sourcemask ("nick!user@host").toList) =
      normalize_sourcemask ("nick!user@host").toList :=
  normalize_sourcemask_idempotent ("nick!user@host").toList ("nick").toList
    ("user").toList ("host").toList (by decide) (by decide) (by decide)
    (by decide) (by decide) (by decide) (by decide)
